import Mathlib

/-!
Verification of the Eukairo adaptive recommendation core.

This file gives a shallow embedding, in Lean, of the decision and inference
subsystem of the repository: the Beta-Bernoulli primitives
(thompson-sampling.ts), the drift detector (drift-detection module), the
contextual hourly sub-models (contextual-bandits.ts), the feedback update
(storage module, updateModel), the exploration/EVPI gate
(confidence-based-exploration module), the ensemble arbitrator
(ensemble-methods module) and the selection orchestrator (bandit module,
selectProtocol), together with theorems settling the frozen claims about
this code.

Modelling conventions:
- JS numbers are modelled as rationals.
- Ambient effects are explicit parameters: the wall clock (Date.now and
  getHours) becomes now and hour arguments, Math.random draws and the
  Beta/Gamma samplers become injected functions or draw values, and the
  transcendental kernels Math.sqrt, Math.exp, Math.log become function
  parameters, since none of the properties proved here depend on their
  values.
- JS records with optional fields become structures with Option fields;
  the JS or-default idiom (x || d), which also replaces a stored 0 by the
  default, is modelled by jsOr; JS object maps become association lists in
  insertion order (jsGet, jsSet).
- Console logging, log-only computations and string formatting are omitted:
  they do not affect any returned value.
-/

/-- JS or-default: x || d. Returns d when x is undefined or 0 (0 is falsy). -/
def jsOr (x : Option ℚ) (d : ℚ) : ℚ :=
  match x with
  | none => d
  | some v => if v = 0 then d else v

/-- Lookup in a JS object map modelled as an association list. -/
def jsGet {β : Type} (l : List (String × β)) (k : String) : Option β :=
  (l.find? (fun e => e.1 = k)).map (fun e => e.2)

/-- Lookup in a JS object map keyed by numbers (hour keys). -/
def jsGetN {β : Type} (l : List (ℕ × β)) (k : ℕ) : Option β :=
  (l.find? (fun e => e.1 = k)).map (fun e => e.2)

/-- Assignment m[k] = v in a JS object map: replace in place, or append. -/
def jsSet {β : Type} (l : List (String × β)) (k : String) (v : β) :
    List (String × β) :=
  if l.any (fun e => e.1 = k) then
    l.map (fun e => if e.1 = k then (k, v) else e)
  else l ++ [(k, v)]

/-- Assignment for number-keyed JS object maps. -/
def jsSetN {β : Type} (l : List (ℕ × β)) (k : ℕ) (v : β) : List (ℕ × β) :=
  if l.any (fun e => e.1 = k) then
    l.map (fun e => if e.1 = k then (k, v) else e)
  else l ++ [(k, v)]

/-- JS Array.slice with a negative start: the last n elements, in order. -/
def jsSliceLast {α : Type} (n : ℕ) (l : List α) : List α :=
  (l.reverse.take n).reverse

/-- JS index pick: Math.floor(u * len) used to index a list. -/
def jsPick {α : Type} (u : ℚ) (l : List α) (d : α) : α :=
  l.getD (Int.toNat ⌊u * (l.length : ℚ)⌋) d

/-! ## Beta-Bernoulli inference primitives (thompson-sampling.ts) -/

/-- deltaToReward: maps ordinal feedback to a reward in [0,1]. -/
def deltaToReward (delta : ℤ) : ℚ :=
  if delta = 1 then 1 else if delta = 0 then 1/2 else 0

/-- updateBetaParams: conjugate update (alpha + r, beta + (1 - r)). -/
def updateBetaParams (currentAlpha currentBeta reward : ℚ) : ℚ × ℚ :=
  (currentAlpha + reward, currentBeta + (1 - reward))

/-- betaMean: mean of a Beta distribution. -/
def betaMean (alpha beta : ℚ) : ℚ :=
  alpha / (alpha + beta)

/-- betaVariance: variance of a Beta distribution. -/
def betaVariance (alpha beta : ℚ) : ℚ :=
  (alpha * beta) / ((alpha + beta) * (alpha + beta) * ((alpha + beta) + 1))

/-- betaCredibleInterval: normal-approximation 95 percent credible interval.
fsqrt is the injected Math.sqrt kernel. -/
def betaCredibleInterval (fsqrt : ℚ → ℚ) (alpha beta : ℚ) : ℚ × ℚ :=
  (max 0 (betaMean alpha beta - 49/25 * fsqrt (betaVariance alpha beta)),
   min 1 (betaMean alpha beta + 49/25 * fsqrt (betaVariance alpha beta)))

/-! ## Drift detector (drift-detection module, in the Insights source file) -/

/-- calculateRecentVariance: population variance, 0 for fewer than 3 samples. -/
def calculateRecentVariance (recentScores : List ℚ) : ℚ :=
  if recentScores.length < 3 then 0
  else
    (recentScores.map
      (fun v => (v - recentScores.sum / (recentScores.length : ℚ)) ^ 2)).sum /
      (recentScores.length : ℚ)

/-- updateScoreWindow: append and keep the last 5 scores. -/
def updateScoreWindow (currentWindow : List ℚ) (newScore : ℚ) : List ℚ :=
  if (currentWindow ++ [newScore]).length > 5 then
    jsSliceLast 5 (currentWindow ++ [newScore])
  else currentWindow ++ [newScore]

/-- shouldResetDueToDrift: variance/cooldown gate. The wall clock Date.now()
is the explicit parameter now. A stored timestamp 0 is falsy in JS and
skips the cooldown check. -/
def shouldResetDueToDrift (now recentVariance : ℚ)
    (lastResetTimestamp : Option ℚ) : Bool :=
  if recentVariance < 3/10 then false
  else
    match lastResetTimestamp with
    | none => true
    | some t => if t = 0 then true else
        if now - t < 3600000 then false else true

/-- softResetBetaParams: keep 25 percent of the prior trials, recenter on the
current mean. -/
def softResetBetaParams (currentAlpha currentBeta : ℚ) : ℚ × ℚ :=
  (1 + currentAlpha / (currentAlpha + currentBeta) *
      ((⌊(currentAlpha + currentBeta - 2) * (1/4)⌋ : ℤ) : ℚ),
   1 + (1 - currentAlpha / (currentAlpha + currentBeta)) *
      ((⌊(currentAlpha + currentBeta - 2) * (1/4)⌋ : ℤ) : ℚ))

/-! ## Data model (types.ts) -/

/-- Hourly Beta sub-model. -/
structure HourlyModel where
  trials : ℕ
  alpha : ℚ
  beta : ℚ
  avg : ℚ
deriving DecidableEq

/-- Per-item posterior state. Optional TS fields are Option; hourly maps are
association lists. The lastUsedISO string is omitted (presentation only). -/
structure ProtocolModel where
  trials : ℕ
  avg : ℚ
  lastDelta : Option ℤ
  medDuration : Option ℚ
  hourlyPerformance : List (ℕ × (ℤ × ℕ))
  emaAvg : Option ℚ
  alphaParam : Option ℚ
  betaParam : Option ℚ
  hourlyModels : List (ℕ × HourlyModel)
  recentVariance : Option ℚ
  lastResetTimestamp : Option ℚ
  windowScores : Option (List ℚ)
deriving DecidableEq

/-- Session history record. The dateISO string is omitted (never read by the
inference core). -/
structure SessionRecord where
  goal : String
  protocolId : String
  seconds : ℚ
  delta : ℤ
deriving DecidableEq

/-- The persisted state blob. -/
structure AppData where
  models : List (String × ProtocolModel)
  history : List SessionRecord
  streak : ℕ
deriving DecidableEq

/-- Catalog item (static, read-only to the core). -/
structure Protocol where
  id : String
  name : String
  baseSeconds : ℚ
deriving DecidableEq

/-- Fallback item used only where the JS code would index out of range. -/
def defaultProtocol : Protocol := { id := "", name := "", baseSeconds := 0 }

/-! ## Contextual hourly sub-models (contextual-bandits.ts) -/

/-- initializeHourlyModel: fresh Beta(1,1) hourly sub-model. -/
def initializeHourlyModel : HourlyModel :=
  { trials := 0, alpha := 1, beta := 1, avg := 0 }

/-- updateHourlyModel: conjugate update of the hourly sub-model of one hour. -/
def updateHourlyModel (model : ProtocolModel) (hour : ℕ) (reward : ℚ) :
    ProtocolModel :=
  let hm0 := (jsGetN model.hourlyModels hour).getD initializeHourlyModel
  let hm1 : HourlyModel :=
    { trials := hm0.trials + 1
      alpha := hm0.alpha + reward
      beta := hm0.beta + (1 - reward)
      avg := (hm0.avg * (hm0.trials : ℚ) + reward) / ((hm0.trials : ℚ) + 1) }
  { model with hourlyModels := jsSetN model.hourlyModels hour hm1 }

/-! ## Feedback update (storage module, part of the persisted-state owner) -/

/-- The lazily created model in updateModel: Beta(1,1) uniform prior. -/
def freshModel : ProtocolModel :=
  { trials := 0
    avg := 0
    lastDelta := none
    medDuration := none
    hourlyPerformance := []
    emaAvg := some 0
    alphaParam := some 1
    betaParam := some 1
    hourlyModels := []
    recentVariance := some 0
    lastResetTimestamp := none
    windowScores := some [] }

/-- addSession: append one record to the history and persist. -/
def addSession (data : AppData) (record : SessionRecord) : AppData :=
  { data with history := data.history ++ [record] }

/-- The adaptive MED step of updateModel, from the last 3 sessions of the
item in the given history. -/
def medStep (history : List SessionRecord) (protocolId : String) : ℚ :=
  let recentSessions :=
    jsSliceLast 3 (history.filter (fun s => s.protocolId = protocolId))
  let consecutiveBetter :=
    2 ≤ recentSessions.length ∧
      (jsSliceLast 2 recentSessions).all (fun s => s.delta = 1)
  let hadWorse := recentSessions.any (fun s => s.delta = -1)
  if hadWorse then 20 else if consecutiveBetter then 10 else 15

/-- updateModel: the feedback update. Mutates (returns) the whole state:
running averages, Beta posterior, hourly sub-model, drift window, possible
soft reset, hourly performance tally, and the MED dose. The clock reads
(getHours, Date.now) are the hour and now parameters. -/
def updateModel (data : AppData) (protocolId : String) (delta : ℤ)
    (currentDuration : ℚ) (hour : ℕ) (now : ℚ) : AppData :=
  let m0 := (jsGet data.models protocolId).getD freshModel
  let reward := deltaToReward delta
  let m1 :=
    if m0.trials = 0 then
      { m0 with avg := (delta : ℚ), emaAvg := some (delta : ℚ) }
    else
      let newAvg := (m0.avg * (m0.trials : ℚ) + (delta : ℚ)) /
        ((m0.trials : ℚ) + 1)
      { m0 with
          avg := newAvg
          emaAvg :=
            some (jsOr m0.emaAvg newAvg * (1 - 1/5) + (delta : ℚ) * (1/5)) }
  let m2 := { m1 with trials := m1.trials + 1, lastDelta := some delta }
  let bu := updateBetaParams (jsOr m2.alphaParam 1) (jsOr m2.betaParam 1) reward
  let m3 := { m2 with alphaParam := some bu.1, betaParam := some bu.2 }
  let m4 := updateHourlyModel m3 hour reward
  let ws := updateScoreWindow (m4.windowScores.getD []) (delta : ℚ)
  let m5 :=
    { m4 with
        windowScores := some ws
        recentVariance := some (calculateRecentVariance ws) }
  let m6 :=
    if shouldResetDueToDrift now (calculateRecentVariance ws)
        m5.lastResetTimestamp then
      let rp := softResetBetaParams bu.1 bu.2
      { m5 with
          alphaParam := some rp.1
          betaParam := some rp.2
          emaAvg := some 0
          avg := 0
          lastResetTimestamp := some now
          windowScores := some [] }
    else m5
  let hp0 := (jsGetN m6.hourlyPerformance hour).getD (0, 0)
  let m7 :=
    { m6 with
        hourlyPerformance :=
          jsSetN m6.hourlyPerformance hour (hp0.1 + delta, hp0.2 + 1) }
  let step := medStep data.history protocolId
  let m8 :=
    if delta = 1 then
      { m7 with medDuration := some (max 45 (currentDuration - step)) }
    else if delta = -1 then
      { m7 with medDuration := some (min 180 (currentDuration + step)) }
    else { m7 with medDuration := some currentDuration }
  { data with models := jsSet data.models protocolId m8 }

/-- saveRating, from the session provider: records the session and then runs
the feedback update, so updateModel sees a history that already contains the
current record. -/
def saveRating (data : AppData) (goal : String) (protocol : Protocol)
    (delta : ℤ) (duration : ℚ) (hour : ℕ) (now : ℚ) : AppData :=
  updateModel
    (addSession data
      { goal := goal
        protocolId := protocol.id
        seconds := duration
        delta := delta })
    protocol.id delta duration hour now

/-! ## Exploration budget / EVPI gate (confidence-based-exploration module) -/

/-- calculateEVPI: value-of-information estimate against the current best
mean, gated on the normal-approximation credible interval. -/
def calculateEVPI (fsqrt : ℚ → ℚ)
    (protocolAlpha protocolBeta currentBestMean : ℚ) : ℚ :=
  if (betaCredibleInterval fsqrt protocolAlpha protocolBeta).2 <
      currentBestMean - 1/20 then 0
  else if (betaCredibleInterval fsqrt protocolAlpha protocolBeta).1 >
      currentBestMean + 1/20 then
    ((betaCredibleInterval fsqrt protocolAlpha protocolBeta).1 -
      currentBestMean) * 10
  else
    max 0 (betaMean protocolAlpha protocolBeta - currentBestMean) +
      fsqrt (betaVariance protocolAlpha protocolBeta) * 5

/-! ## Ensemble arbitrator (ensemble-methods module) -/

inductive EnsembleAlgorithm
  | thompson
  | ucb
  | epsilonGreedy
  | softmax
deriving DecidableEq

/-- One vote of one strategy. The reasoning string is omitted. -/
structure AlgorithmVote where
  algorithm : EnsembleAlgorithm
  protocolId : String
  confidence : ℚ
  score : ℚ
deriving DecidableEq

structure EnsembleWeights where
  thompson : ℚ
  ucb : ℚ
  epsilonGreedy : ℚ
  softmax : ℚ
deriving DecidableEq

def weightOf (w : EnsembleWeights) : EnsembleAlgorithm → ℚ
  | EnsembleAlgorithm.thompson => w.thompson
  | EnsembleAlgorithm.ucb => w.ucb
  | EnsembleAlgorithm.epsilonGreedy => w.epsilonGreedy
  | EnsembleAlgorithm.softmax => w.softmax

/-- The candidate record handed to the arbitrator by the orchestrator. -/
structure EnsembleProtocol where
  id : String
  name : String
  alpha : ℚ
  beta : ℚ
  trials : ℕ
deriving DecidableEq

def defaultEnsembleProtocol : EnsembleProtocol :=
  { id := "", name := "", alpha := 1, beta := 1, trials := 0 }

/-- Injected randomness and math kernels for the four strategies: tsamp is
the Beta sampler of the Thompson vote (indexed by candidate position), and
the three uniform draws feed the epsilon-greedy test and pick and the
softmax pick. -/
structure EnsembleEnv where
  tsamp : ℕ → ℚ → ℚ → ℚ
  fsqrt : ℚ → ℚ
  fexp : ℚ → ℚ
  flog : ℚ → ℚ
  uEpsTest : ℚ
  uEpsPick : ℚ
  uSoftmax : ℚ

/-- Stable insertion into a descending list: ties keep original order,
matching the stable JS Array.sort with a b-minus-a comparator. -/
def insertDescBy {α : Type} (key : α → ℚ) (x : α) : List α → List α
  | [] => [x]
  | y :: ys => if key x < key y then y :: insertDescBy key x ys
      else x :: y :: ys

/-- Stable descending sort by a rational key. -/
def sortDescBy {α : Type} (key : α → ℚ) : List α → List α
  | [] => []
  | x :: xs => insertDescBy key x (sortDescBy key xs)

structure ScoredItem where
  id : String
  sample : ℚ
  mean : ℚ
  variance : ℚ
deriving DecidableEq

def defaultScoredItem : ScoredItem :=
  { id := "", sample := 0, mean := 0, variance := 0 }

/-- Thompson vote: highest Beta sample wins; confidence scales with the gap
to the runner-up and shrinks with the winner variance. -/
def thompsonVote (env : EnsembleEnv) (protocols : List EnsembleProtocol) :
    AlgorithmVote :=
  let samples := protocols.enum.map (fun ip =>
    ({ id := ip.2.id
       sample := env.tsamp ip.1 ip.2.alpha ip.2.beta
       mean := betaMean ip.2.alpha ip.2.beta
       variance := (ip.2.alpha * ip.2.beta) /
         ((ip.2.alpha + ip.2.beta) ^ 2 * (ip.2.alpha + ip.2.beta + 1)) } :
      ScoredItem))
  let sorted := sortDescBy (fun s => s.sample) samples
  let winner := sorted.getD 0 defaultScoredItem
  let gap := if 1 < samples.length then
      winner.sample - (sorted.getD 1 defaultScoredItem).sample
    else 1/2
  { algorithm := EnsembleAlgorithm.thompson
    protocolId := winner.id
    confidence := min 1 (gap * 2) * (1 - env.fsqrt winner.variance)
    score := winner.sample }

structure UcbScored where
  id : String
  score : ℚ
  mean : ℚ
  exploration : ℚ
deriving DecidableEq

def defaultUcbScored : UcbScored :=
  { id := "", score := 0, mean := 0, exploration := 0 }

/-- UCB vote: optimism bonus from the visit counts plus a variance bonus. -/
def ucbVote (env : EnsembleEnv) (protocols : List EnsembleProtocol)
    (totalTrials : ℕ) : AlgorithmVote :=
  let scores := protocols.map (fun p =>
    ({ id := p.id
       score := betaMean p.alpha p.beta +
         env.fsqrt ((2 * env.flog ((totalTrials : ℚ) + 1)) /
           ((p.trials : ℚ) + 1)) +
         env.fsqrt ((p.alpha * p.beta) /
           ((p.alpha + p.beta) ^ 2 * (p.alpha + p.beta + 1)))
       mean := betaMean p.alpha p.beta
       exploration := env.fsqrt ((2 * env.flog ((totalTrials : ℚ) + 1)) /
         ((p.trials : ℚ) + 1)) } : UcbScored))
  let sorted := sortDescBy (fun s => s.score) scores
  let winner := sorted.getD 0 defaultUcbScored
  { algorithm := EnsembleAlgorithm.ucb
    protocolId := winner.id
    confidence := min 1 (winner.mean / (winner.mean + winner.exploration))
    score := winner.score }

structure MeanItem where
  id : String
  mean : ℚ
  variance : ℚ
deriving DecidableEq

def defaultMeanItem : MeanItem := { id := "", mean := 0, variance := 0 }

/-- Epsilon-greedy vote: with probability epsilon pick uniformly at random
with confidence 0.3, else pick the highest posterior mean. -/
def epsilonGreedyVote (env : EnsembleEnv) (protocols : List EnsembleProtocol)
    (totalTrials : ℕ) : AlgorithmVote :=
  let epsilon := max (1/20) (1/5 * env.fexp (-(totalTrials : ℚ) / 30))
  if env.uEpsTest < epsilon then
    let randomProtocol := jsPick env.uEpsPick protocols defaultEnsembleProtocol
    { algorithm := EnsembleAlgorithm.epsilonGreedy
      protocolId := randomProtocol.id
      confidence := 3/10
      score := betaMean randomProtocol.alpha randomProtocol.beta }
  else
    let means := protocols.map (fun p =>
      ({ id := p.id
         mean := betaMean p.alpha p.beta
         variance := (p.alpha * p.beta) /
           ((p.alpha + p.beta) ^ 2 * (p.alpha + p.beta + 1)) } : MeanItem))
    let sorted := sortDescBy (fun s => s.mean) means
    let winner := sorted.getD 0 defaultMeanItem
    { algorithm := EnsembleAlgorithm.epsilonGreedy
      protocolId := winner.id
      confidence := 1 - env.fsqrt winner.variance
      score := winner.mean }

/-- The cumulative-probability scan of the softmax vote: the first index
whose running total reaches the draw, 0 when the scan runs out. -/
def softmaxSelectFrom (u cumulativeProb : ℚ) (i : ℕ) : List ℚ → ℕ
  | [] => 0
  | p :: ps => if u ≤ cumulativeProb + p then i
      else softmaxSelectFrom u (cumulativeProb + p) (i + 1) ps

def softmaxSelect (u : ℚ) (probabilities : List ℚ) : ℕ :=
  softmaxSelectFrom u 0 0 probabilities

/-- Softmax vote: sample an index proportionally to exp(mean/temperature);
confidence is the drawn softmax probability. -/
def softmaxVote (env : EnsembleEnv) (protocols : List EnsembleProtocol)
    (totalTrials : ℕ) : AlgorithmVote :=
  let temperature := max (1/10) (1 * env.fexp (-(totalTrials : ℚ) / 40))
  let means := protocols.map (fun p => betaMean p.alpha p.beta)
  let expScores := means.map (fun m => env.fexp (m / temperature))
  let probabilities := expScores.map (fun e => e / expScores.sum)
  let selectedIndex := softmaxSelect env.uSoftmax probabilities
  let winner := protocols.getD selectedIndex defaultEnsembleProtocol
  { algorithm := EnsembleAlgorithm.softmax
    protocolId := winner.id
    confidence := probabilities.getD selectedIndex 0
    score := means.getD selectedIndex 0 }

/-- The per-item summed weighted confidence (the voteCounts object). -/
def weightedCount (w : EnsembleWeights) (votes : List AlgorithmVote)
    (pid : String) : ℚ :=
  (votes.map (fun v =>
    if v.protocolId = pid then weightOf w v.algorithm * v.confidence
    else 0)).sum

/-- The keys of the voteCounts object, in insertion order. -/
def voteKeys (votes : List AlgorithmVote) : List String :=
  votes.foldl (fun acc v =>
    if acc.contains v.protocolId then acc else acc ++ [v.protocolId]) []

/-- The first key with the maximal value, as the stable descending sort of
Object.entries followed by taking the head. -/
def argmaxKey (f : String → ℚ) : List String → Option String
  | [] => none
  | k :: ks =>
      match argmaxKey f ks with
      | none => some k
      | some k2 => if f k2 > f k then some k2 else some k

/-- The arbitrator result. The explanation string is omitted. -/
structure EnsembleResult where
  selectedProtocolId : String
  selectedProtocolName : String
  votes : List AlgorithmVote
  consensusScore : ℚ
deriving DecidableEq

/-- ensembleVoting: run the four strategies, sum each vote confidence
weighted by its strategy weight per item, let the highest total win, and
report the fraction of strategies agreeing with the winner. -/
def ensembleVoting (env : EnsembleEnv) (protocols : List EnsembleProtocol)
    (totalTrials : ℕ) (weights : EnsembleWeights) : EnsembleResult :=
  let votes := [thompsonVote env protocols,
                ucbVote env protocols totalTrials,
                epsilonGreedyVote env protocols totalTrials,
                softmaxVote env protocols totalTrials]
  let winnerId := (argmaxKey (weightedCount weights votes)
    (voteKeys votes)).getD ""
  { selectedProtocolId := winnerId
    selectedProtocolName :=
      ((protocols.find? (fun p => p.id = winnerId)).getD
        defaultEnsembleProtocol).name
    votes := votes
    consensusScore :=
      ((votes.filter (fun v => v.protocolId = winnerId)).length : ℚ) /
        (votes.length : ℚ) }

/-! ## Selection orchestrator (bandit module, selectProtocol) -/

/-- Injected ambient inputs of one selection call: clock reads, the uniform
draw of each random pick, the per-candidate uniform draws and Beta samples
of the standard branch, the Math.sqrt kernel, and the arbitrator inputs. -/
structure SelectEnv where
  hour : ℕ
  now : ℚ
  uUntried : ℚ
  uUndertried : ℚ
  uHourly : ℚ
  stdUnif : ℕ → ℚ
  stdSample : ℕ → ℚ → ℚ → ℚ
  fsqrt : ℚ → ℚ
  ens : EnsembleEnv

/-- The early-return point a selection call exits from. -/
inductive Phase
  | untried
  | undertried
  | hourly
  | ensemble
  | standard
deriving DecidableEq

/-- The observable outcome of a selection call: the phase taken, the decision
pair, and the persisted state as left behind by the call. -/
structure SelectResult where
  phase : Phase
  protocol : Protocol
  duration : ℚ
  newData : AppData
deriving DecidableEq

/-- Phase 1 filter: candidates with no model or zero trials. -/
def untriedCandidates (data : AppData) (candidates : List Protocol) :
    List Protocol :=
  candidates.filter (fun p =>
    match jsGet data.models p.id with
    | none => true
    | some m => m.trials = 0)

/-- Phase 2 filter: candidates with a model, fewer than 2 trials, and not
flagged consistently negative (emaAvg below -0.3). -/
def undertriedCandidates (data : AppData) (candidates : List Protocol) :
    List Protocol :=
  candidates.filter (fun p =>
    match jsGet data.models p.id with
    | none => false
    | some m =>
        match m.emaAvg with
        | some e => if e < -3/10 then false else m.trials < 2
        | none => m.trials < 2)

/-- Phase 3 filter: tried, not consistently negative, and fewer than 2 trials
recorded for the current hour. -/
def hourlyUndertriedCandidates (hour : ℕ) (data : AppData)
    (candidates : List Protocol) : List Protocol :=
  candidates.filter (fun p =>
    match jsGet data.models p.id with
    | none => false
    | some m =>
        if m.trials = 0 then false
        else if (match m.emaAvg with
                 | some e => decide (e < -3/10)
                 | none => false) then false
        else
          match jsGetN m.hourlyModels hour with
          | none => true
          | some hm => hm.trials < 2)

/-- The full-reset model written by the drift sweep: the replacement object
drops every field it does not list. -/
def resetModel (now : ℚ) : ProtocolModel :=
  { trials := 0
    avg := 0
    lastDelta := none
    medDuration := none
    hourlyPerformance := []
    emaAvg := some 0
    alphaParam := some (3/2)
    betaParam := some 1
    hourlyModels := []
    recentVariance := some 0
    lastResetTimestamp := some now
    windowScores := some [] }

/-- Whether the drift sweep fires for one candidate: both drift fields must
be present (strict undefined checks in the source) and the gate must hold. -/
def driftTriggers (now : ℚ) (data : AppData) (p : Protocol) : Bool :=
  match jsGet data.models p.id with
  | none => false
  | some m =>
      match m.recentVariance, m.lastResetTimestamp with
      | some v, some t => shouldResetDueToDrift now v (some t)
      | _, _ => false

/-- The drift sweep of the selection call: resets every drifting candidate
in order and persists each reset (the only writes of a selection call). -/
def driftSweep (now : ℚ) (candidates : List Protocol) (data : AppData) :
    AppData :=
  candidates.foldl (fun d p =>
    if driftTriggers now d p then
      { d with models := jsSet d.models p.id (resetModel now) }
    else d) data

/-- One row of allProtocolStats. -/
structure ProtocolStat where
  protocol : Protocol
  mean : ℚ
  variance : ℚ
  trials : ℕ
deriving DecidableEq

def defaultProtocolStat : ProtocolStat :=
  { protocol := defaultProtocol, mean := 0, variance := 0, trials := 0 }

/-- allProtocolStats: candidates with at least one trial, with posterior
mean and variance, sorted by mean descending. -/
def allProtocolStats (data : AppData) (candidates : List Protocol) :
    List ProtocolStat :=
  sortDescBy (fun s => s.mean)
    (candidates.filterMap (fun p =>
      match jsGet data.models p.id with
      | none => none
      | some m =>
          if m.trials = 0 then none
          else
            some { protocol := p
                   mean := betaMean (jsOr m.alphaParam (3/2))
                     (jsOr m.betaParam 1)
                   variance := (jsOr m.alphaParam (3/2) * jsOr m.betaParam 1) /
                     ((jsOr m.alphaParam (3/2) + jsOr m.betaParam 1) ^ 2 *
                       (jsOr m.alphaParam (3/2) + jsOr m.betaParam 1 + 1))
                   trials := m.trials }))

/-- The close-competition test of the orchestrator, on the sorted stats. -/
def isCloseCompetition (stats : List ProtocolStat) : Bool :=
  decide (2 ≤ stats.length) &&
  decide (20 ≤ (stats.getD 0 defaultProtocolStat).trials) &&
  decide (20 ≤ (stats.getD 1 defaultProtocolStat).trials) &&
  decide ((stats.getD 0 defaultProtocolStat).mean -
    (stats.getD 1 defaultProtocolStat).mean < 1/20)

/-- The candidate list handed to the arbitrator. -/
def protocolsForEnsemble (data : AppData) (candidates : List Protocol) :
    List EnsembleProtocol :=
  candidates.map (fun p =>
    { id := p.id
      name := p.name
      alpha := jsOr ((jsGet data.models p.id).bind
        (fun m => m.alphaParam)) (3/2)
      beta := jsOr ((jsGet data.models p.id).bind
        (fun m => m.betaParam)) 1
      trials :=
        match jsGet data.models p.id with
        | none => 0
        | some m => m.trials })

/-- The standard Thompson loop: each adequately tried candidate scores its
Beta sample plus a small uncertainty bonus, an undertried candidate scores a
uniform draw plus the exploration bonus; strictly higher scores replace the
running best, so the first candidate wins ties. -/
def standardSelect (env : SelectEnv) (data : AppData)
    (candidates : List Protocol) : Protocol :=
  (candidates.enum.foldl (fun best ip =>
    let score :=
      match jsGet data.models ip.2.id with
      | none => env.stdUnif ip.1 + 1/20
      | some m =>
          if m.trials < 2 then env.stdUnif ip.1 + 1/20
          else
            env.stdSample ip.1 (jsOr m.alphaParam 1) (jsOr m.betaParam 1) +
              env.fsqrt ((jsOr m.alphaParam 1 * jsOr m.betaParam 1) /
                ((jsOr m.alphaParam 1 + jsOr m.betaParam 1) ^ 2 *
                  (jsOr m.alphaParam 1 + jsOr m.betaParam 1 + 1))) * (1/20)
    match best with
    | none => some (ip.2, score)
    | some bp => if score > bp.2 then some (ip.2, score) else some bp)
    (none : Option (Protocol × ℚ))).elim defaultProtocol (fun bp => bp.1)

/-- The orchestrator weights handed to the arbitrator. -/
def orchestratorWeights : EnsembleWeights :=
  { thompson := 35/100, ucb := 25/100, epsilonGreedy := 25/100,
    softmax := 15/100 }

/-- selectProtocol: the top-level decision call over the loaded state. The
EVPI recommendation and flat-landscape computations of the source only feed
console logs and are omitted; candidates is the catalog slice for the goal. -/
def selectProtocol (env : SelectEnv) (candidates : List Protocol)
    (data : AppData) : SelectResult :=
  let untried := untriedCandidates data candidates
  if 0 < untried.length then
    let protocol := jsPick env.uUntried untried defaultProtocol
    { phase := Phase.untried
      protocol := protocol
      duration := protocol.baseSeconds
      newData := data }
  else
    let undertried := undertriedCandidates data candidates
    if 0 < undertried.length then
      let protocol := jsPick env.uUndertried undertried defaultProtocol
      { phase := Phase.undertried
        protocol := protocol
        duration := protocol.baseSeconds
        newData := data }
    else
      let hourlyUndertried := hourlyUndertriedCandidates env.hour data candidates
      if 0 < hourlyUndertried.length then
        let protocol := jsPick env.uHourly hourlyUndertried defaultProtocol
        { phase := Phase.hourly
          protocol := protocol
          duration := protocol.baseSeconds
          newData := data }
      else
        let data2 := driftSweep env.now candidates data
        if isCloseCompetition (allProtocolStats data2 candidates) then
          let pfe := protocolsForEnsemble data2 candidates
          let er := ensembleVoting env.ens pfe
            ((pfe.map (fun p => p.trials)).sum) orchestratorWeights
          let selectedProtocol := (candidates.find?
            (fun p => p.id = er.selectedProtocolId)).getD defaultProtocol
          { phase := Phase.ensemble
            protocol := selectedProtocol
            duration := jsOr ((jsGet data2.models selectedProtocol.id).bind
              (fun m => m.medDuration)) selectedProtocol.baseSeconds
            newData := data2 }
        else
          let bestProtocol := standardSelect env data2 candidates
          { phase := Phase.standard
            protocol := bestProtocol
            duration := jsOr ((jsGet data2.models bestProtocol.id).bind
              (fun m => m.medDuration)) bestProtocol.baseSeconds
            newData := data2 }

/-- adjustDuration: the fixed-step dose preview of the bandit module (the
stored dose is adjusted by updateModel instead). -/
def adjustDuration (_protocolId : String) (baseDuration : ℚ)
    (lastDelta : ℤ) : ℚ :=
  if lastDelta = 1 then max 45 (baseDuration - 15)
  else if lastDelta = -1 then min 180 (baseDuration + 15)
  else baseDuration

/-! ## Verification-side definitions and concrete states used by the
claim theorems -/

/-- A better-rated session record. -/
def recC1 (goal : String) (pid : String) (duration : ℚ) : SessionRecord :=
  { goal := goal, protocolId := pid, seconds := duration, delta := 1 }

def modelC1 : ProtocolModel :=
  { trials := 5, avg := 0, lastDelta := none, medDuration := some 120,
    hourlyPerformance := [], emaAvg := some 0, alphaParam := some 3,
    betaParam := some 3, hourlyModels := [], recentVariance := some 0,
    lastResetTimestamp := none, windowScores := some [] }

def protocolC1 : Protocol := { id := "p", name := "P", baseSeconds := 120 }

def dataC1 : AppData :=
  { models := [("p", modelC1)], history := [], streak := 0 }

def dataC1w : AppData :=
  { models := [("p", modelC1)], history := [recC1 "focus" "p" 120],
    streak := 0 }

/-- The Beta parameters stored by updateModel, as a function of the prior
model: the conjugate update, soft-reset when the drift gate fires on the
updated window. -/
def updatedParams (m0 : ProtocolModel) (delta : ℤ) (now : ℚ) : ℚ × ℚ :=
  if shouldResetDueToDrift now
      (calculateRecentVariance
        (updateScoreWindow (m0.windowScores.getD []) (delta : ℚ)))
      m0.lastResetTimestamp then
    softResetBetaParams
      (updateBetaParams (jsOr m0.alphaParam 1) (jsOr m0.betaParam 1)
        (deltaToReward delta)).1
      (updateBetaParams (jsOr m0.alphaParam 1) (jsOr m0.betaParam 1)
        (deltaToReward delta)).2
  else
    updateBetaParams (jsOr m0.alphaParam 1) (jsOr m0.betaParam 1)
      (deltaToReward delta)

/-- The invariant of claim C4: every stored Beta parameter is at least 1. -/
def betaParamsGE1 (data : AppData) : Prop :=
  ∀ pid m, jsGet data.models pid = some m →
    (∀ a, m.alphaParam = some a → 1 ≤ a) ∧
    (∀ b, m.betaParam = some b → 1 ≤ b)

def emptyData : AppData := { models := [], history := [], streak := 0 }

def modelC2 : ProtocolModel :=
  { trials := 5, avg := 0, lastDelta := none, medDuration := some 90,
    hourlyPerformance := [], emaAvg := some 0, alphaParam := some 3,
    betaParam := some 3, hourlyModels := [], recentVariance := some 0,
    lastResetTimestamp := none, windowScores := some [] }

def dataC2 : AppData :=
  { models := [("p", modelC2)], history := [], streak := 0 }

def protocolP : Protocol := { id := "p", name := "P", baseSeconds := 120 }

def envStd : SelectEnv :=
  { hour := 10, now := 0, uUntried := 0, uUndertried := 0, uHourly := 0,
    stdUnif := fun _ => 0, stdSample := fun _ _ _ => 0, fsqrt := fun _ => 0,
    ens := { tsamp := fun _ _ _ => 0, fsqrt := fun _ => 0, fexp := fun _ => 0,
             flog := fun _ => 0, uEpsTest := 0, uEpsPick := 0, uSoftmax := 0 } }

def modelC3 : ProtocolModel :=
  { trials := 25, avg := 0, lastDelta := none, medDuration := some 120,
    hourlyPerformance := [], emaAvg := some 0, alphaParam := some 21,
    betaParam := some 6,
    hourlyModels := [(10, { trials := 2, alpha := 1, beta := 1, avg := 0 })],
    recentVariance := some (1/2), lastResetTimestamp := some 1,
    windowScores := some [1, -1, 1, -1, 1] }

def dataC3 : AppData :=
  { models := [("p", modelC3)], history := [], streak := 0 }

def envC3 : SelectEnv := { envStd with now := 3600001 }

/-- Claim C8, the close-competition condition in the words of the spec:
ranking the candidates having at least one trial by posterior mean, there
are at least two such candidates, the top two both have at least 20 trials,
and their posterior means differ by less than 0.05. -/
def specCloseCompetition (data : AppData) (candidates : List Protocol) :
    Prop :=
  2 ≤ (allProtocolStats data candidates).length ∧
  20 ≤ ((allProtocolStats data candidates).getD 0 defaultProtocolStat).trials ∧
  20 ≤ ((allProtocolStats data candidates).getD 1 defaultProtocolStat).trials ∧
  ((allProtocolStats data candidates).getD 0 defaultProtocolStat).mean -
    ((allProtocolStats data candidates).getD 1 defaultProtocolStat).mean <
    1/20

instance specCloseCompetitionDecidable (data : AppData)
    (candidates : List Protocol) :
    Decidable (specCloseCompetition data candidates) := by
  unfold specCloseCompetition
  infer_instance

def modelC8a : ProtocolModel :=
  { trials := 25, avg := 0, lastDelta := none, medDuration := some 100,
    hourlyPerformance := [], emaAvg := some 0, alphaParam := some 21,
    betaParam := some 9,
    hourlyModels := [(10, { trials := 2, alpha := 1, beta := 1, avg := 0 })],
    recentVariance := none, lastResetTimestamp := none,
    windowScores := some [] }

def modelC8b : ProtocolModel :=
  { trials := 25, avg := 0, lastDelta := none, medDuration := some 110,
    hourlyPerformance := [], emaAvg := some 0, alphaParam := some 22,
    betaParam := some 8,
    hourlyModels := [(10, { trials := 2, alpha := 1, beta := 1, avg := 0 })],
    recentVariance := none, lastResetTimestamp := none,
    windowScores := some [] }

def dataC8 : AppData :=
  { models := [("a", modelC8a), ("b", modelC8b)], history := [], streak := 0 }

def candsC8 : List Protocol :=
  [{ id := "a", name := "A", baseSeconds := 120 },
   { id := "b", name := "B", baseSeconds := 150 }]

/-! ## Helper lemmas -/

lemma deltaToReward_nonneg (delta : ℤ) : 0 ≤ deltaToReward delta := by
  unfold deltaToReward
  split_ifs <;> norm_num

lemma deltaToReward_le_one (delta : ℤ) : deltaToReward delta ≤ 1 := by
  unfold deltaToReward
  split_ifs <;> norm_num

/-! ## Claim C5 -/

/-- Claim C5, counterexample: with variance exactly at the threshold and
exactly 3,600,000 ms elapsed since the last reset, the code returns true,
while the claim (more than 3,600,000 ms elapsed) requires false. -/
theorem C5_counterexample :
    shouldResetDueToDrift 3600005 (3/10) (some 5) = true ∧
      ¬((3600005 : ℚ) - 5 > 3600000) := by
  constructor
  · unfold shouldResetDueToDrift
    norm_num
  · norm_num

/-- Claim C5, amended: shouldResetDueToDrift returns true iff the variance
is at least 0.30 and the last-reset timestamp is absent, zero (falsy), or
at least (not strictly more than) 3,600,000 ms in the past. -/
theorem C5_amended (now recentVariance : ℚ) (lastResetTimestamp : Option ℚ) :
    shouldResetDueToDrift now recentVariance lastResetTimestamp = true ↔
      (3/10 ≤ recentVariance ∧
        ∀ t, lastResetTimestamp = some t → t = 0 ∨ 3600000 ≤ now - t) := by
  rcases lastResetTimestamp with _ | t
  · show (if recentVariance < 3/10 then false else true) = true ↔ _
    constructor
    · intro h
      by_cases hv : recentVariance < 3/10
      · rw [if_pos hv] at h
        exact absurd h (by simp)
      · exact ⟨not_lt.mp hv, fun t ht => by cases ht⟩
    · intro h
      rw [if_neg (not_lt.mpr h.1)]
  · show (if recentVariance < 3/10 then false else
      if t = 0 then true else
        if now - t < 3600000 then false else true) = true ↔ _
    constructor
    · intro h
      by_cases hv : recentVariance < 3/10
      · rw [if_pos hv] at h
        exact absurd h (by simp)
      · rw [if_neg hv] at h
        refine ⟨not_lt.mp hv, ?_⟩
        intro s hs
        obtain rfl : t = s := Option.some_inj.mp hs
        by_cases ht : t = 0
        · exact Or.inl ht
        · rw [if_neg ht] at h
          by_cases hc : now - t < 3600000
          · rw [if_pos hc] at h
            exact absurd h (by simp)
          · exact Or.inr (not_lt.mp hc)
    · intro h
      rw [if_neg (not_lt.mpr h.1)]
      rcases h.2 t rfl with h0 | h36
      · rw [if_pos h0]
      · by_cases ht : t = 0
        · rw [if_pos ht]
        · rw [if_neg ht, if_neg (not_lt.mpr h36)]

/-! ## Claim C6 -/

/-- Claim C6, counterexample: at alpha = beta = 1 the soft reset returns
(1, 1), so the total alpha + beta is preserved, not strictly shrunk. -/
theorem C6_counterexample :
    softResetBetaParams 1 1 = (1, 1) ∧
      ¬((softResetBetaParams 1 1).1 + (softResetBetaParams 1 1).2 <
        (1 : ℚ) + 1) := by
  constructor
  · norm_num [softResetBetaParams]
  · norm_num [softResetBetaParams]

/-- Claim C6, amended: the soft reset returns the claimed formula; the new
total is at most the old one, strictly smaller whenever alpha + beta
exceeds 2 (at alpha + beta = 2 the total is preserved); and the new mean
lies between the old mean and one half, a precise form of approximate mean
preservation. -/
theorem C6_amended (a b : ℚ) (ha : 1 ≤ a) (hb : 1 ≤ b) :
    softResetBetaParams a b =
      (1 + a / (a + b) * ((⌊(a + b - 2) * (1/4)⌋ : ℤ) : ℚ),
       1 + (1 - a / (a + b)) * ((⌊(a + b - 2) * (1/4)⌋ : ℤ) : ℚ)) ∧
    (softResetBetaParams a b).1 + (softResetBetaParams a b).2 ≤ a + b ∧
    (2 < a + b →
      (softResetBetaParams a b).1 + (softResetBetaParams a b).2 < a + b) ∧
    min (a / (a + b)) (1/2) ≤
      (softResetBetaParams a b).1 /
        ((softResetBetaParams a b).1 + (softResetBetaParams a b).2) ∧
    (softResetBetaParams a b).1 /
        ((softResetBetaParams a b).1 + (softResetBetaParams a b).2) ≤
      max (a / (a + b)) (1/2) := by
  have hs : 0 < a + b := by linarith
  have h2 : (0 : ℚ) ≤ a + b - 2 := by linarith
  set k : ℚ := ((⌊(a + b - 2) * (1/4)⌋ : ℤ) : ℚ) with hkdef
  have hk0 : 0 ≤ k := by
    rw [hkdef]
    exact_mod_cast Int.floor_nonneg.mpr (mul_nonneg h2 (by norm_num))
  have hkle : k ≤ (a + b - 2) * (1/4) := by
    rw [hkdef]
    exact_mod_cast Int.floor_le _
  set m : ℚ := a / (a + b) with hmdef
  have hm0 : 0 ≤ m := div_nonneg (by linarith) (le_of_lt hs)
  have hm1 : m ≤ 1 := by
    rw [hmdef]
    exact (div_le_one hs).mpr (by linarith)
  have hp1 : (softResetBetaParams a b).1 = 1 + m * k := rfl
  have hp2 : (softResetBetaParams a b).2 = 1 + (1 - m) * k := rfl
  have hsum : (softResetBetaParams a b).1 + (softResetBetaParams a b).2 =
      2 + k := by
    rw [hp1, hp2]
    ring
  have hden : (0 : ℚ) < 2 + k := by linarith
  refine ⟨rfl, ?_, ?_, ?_, ?_⟩
  · rw [hsum]
    linarith
  · intro hlt
    rw [hsum]
    linarith
  · rw [hsum, hp1]
    rcases le_total m (1/2) with hm | hm
    · rw [min_eq_left hm, le_div_iff hden]
      nlinarith
    · rw [min_eq_right hm, le_div_iff hden]
      nlinarith [mul_nonneg hk0 (by linarith : (0:ℚ) ≤ m - 1/2)]
  · rw [hsum, hp1]
    rcases le_total m (1/2) with hm | hm
    · rw [max_eq_right hm, div_le_iff hden]
      nlinarith [mul_nonneg hk0 (by linarith : (0:ℚ) ≤ 1/2 - m)]
    · rw [max_eq_left hm, div_le_iff hden]
      nlinarith

/-- Claim C6, witness for the amended theorem at alpha = 5, beta = 3. -/
theorem C6_witness :
    (softResetBetaParams 5 3).1 + (softResetBetaParams 5 3).2 < 5 + 3 :=
  (C6_amended 5 3 (by norm_num) (by norm_num)).2.2.1 (by norm_num)

/-! ## Claim C7 -/

/-- Claim C7: updateBetaParams returns (alpha + r, beta + (1 - r)),
deltaToReward maps -1, 0, 1 to 0, one half, 1, and the update is monotone
in the claimed way for rewards 1, 0 and one half. -/
theorem C7_updatePosterior (alpha beta : ℚ) (ha : 0 < alpha) (hb : 0 < beta)
    (reward : ℚ) (hr0 : 0 ≤ reward) (hr1 : reward ≤ 1) :
    updateBetaParams alpha beta reward =
      (alpha + reward, beta + (1 - reward)) ∧
    deltaToReward (-1) = 0 ∧ deltaToReward 0 = 1/2 ∧ deltaToReward 1 = 1 ∧
    (reward = 1 →
      alpha < (updateBetaParams alpha beta reward).1 ∧
      (updateBetaParams alpha beta reward).2 = beta) ∧
    (reward = 0 →
      beta < (updateBetaParams alpha beta reward).2 ∧
      (updateBetaParams alpha beta reward).1 = alpha) ∧
    (reward = 1/2 →
      (updateBetaParams alpha beta reward).1 = alpha + 1/2 ∧
      (updateBetaParams alpha beta reward).2 = beta + 1/2) := by
  refine ⟨rfl, by norm_num [deltaToReward], by norm_num [deltaToReward],
    by norm_num [deltaToReward], ?_, ?_, ?_⟩
  · intro h
    subst h
    unfold updateBetaParams
    constructor
    · norm_num
    · norm_num
  · intro h
    subst h
    unfold updateBetaParams
    constructor
    · norm_num
    · norm_num
  · intro h
    subst h
    unfold updateBetaParams
    constructor
    · norm_num
    · norm_num

/-- Claim C7, witness at alpha = beta = 1, reward one half. -/
theorem C7_witness :
    updateBetaParams 1 1 (1/2) = (1 + 1/2, 1 + (1 - 1/2)) :=
  (C7_updatePosterior 1 1 (by norm_num) (by norm_num) (1/2) (by norm_num)
    (by norm_num)).1

/-! ## Claim C10 -/

/-- Claim C10: calculateEVPI returns 0 when the credible upper bound is
more than 0.05 below the best mean, the scaled lower-bound excess when the
lower bound exceeds the best mean plus 0.05, and the ambiguous-zone formula
otherwise. The injected square root is only assumed nonnegative on the
variance, as Math.sqrt is. -/
theorem C10_calculateEVPI (fsqrt : ℚ → ℚ) (alpha beta best : ℚ)
    (ha : 0 < alpha) (hb : 0 < beta)
    (hs : 0 ≤ fsqrt (betaVariance alpha beta)) :
    ((betaCredibleInterval fsqrt alpha beta).2 < best - 1/20 →
      calculateEVPI fsqrt alpha beta best = 0) ∧
    ((betaCredibleInterval fsqrt alpha beta).1 > best + 1/20 →
      calculateEVPI fsqrt alpha beta best =
        ((betaCredibleInterval fsqrt alpha beta).1 - best) * 10) ∧
    (¬(betaCredibleInterval fsqrt alpha beta).2 < best - 1/20 →
     ¬(betaCredibleInterval fsqrt alpha beta).1 > best + 1/20 →
      calculateEVPI fsqrt alpha beta best =
        max 0 (betaMean alpha beta - best) +
          fsqrt (betaVariance alpha beta) * 5) := by
  have hab : (0 : ℚ) < alpha + beta := by linarith
  have hmean0 : 0 ≤ betaMean alpha beta :=
    div_nonneg (le_of_lt ha) (le_of_lt hab)
  have hmean1 : betaMean alpha beta ≤ 1 := by
    unfold betaMean
    exact (div_le_one hab).mpr (by linarith)
  have hlo : (betaCredibleInterval fsqrt alpha beta).1 ≤
      betaMean alpha beta := by
    unfold betaCredibleInterval
    exact max_le hmean0 (by nlinarith)
  have hhi : betaMean alpha beta ≤
      (betaCredibleInterval fsqrt alpha beta).2 := by
    unfold betaCredibleInterval
    exact le_min hmean1 (by nlinarith)
  refine ⟨?_, ?_, ?_⟩
  · intro h
    unfold calculateEVPI
    rw [if_pos h]
  · intro h
    have hnot : ¬(betaCredibleInterval fsqrt alpha beta).2 < best - 1/20 := by
      push_neg
      have := le_trans hlo hhi
      linarith
    unfold calculateEVPI
    rw [if_neg hnot, if_pos h]
  · intro h1 h2
    unfold calculateEVPI
    rw [if_neg h1, if_neg h2]

/-- Claim C10, witness: with a zero square-root kernel and a uniform
posterior against best mean 0, the likely-better branch fires. -/
theorem C10_witness :
    calculateEVPI (fun _ => 0) 1 1 0 =
      ((betaCredibleInterval (fun _ => 0) 1 1).1 - 0) * 10 :=
  (C10_calculateEVPI (fun _ => 0) 1 1 0 (by norm_num) (by norm_num)
    (by norm_num)).2.1
    (by norm_num [betaCredibleInterval, betaMean, betaVariance])

/-! ## Association-list lemmas -/

lemma jsGet_cons {β : Type} (a : String × β) (t : List (String × β))
    (k : String) :
    jsGet (a :: t) k = if a.1 = k then some a.2 else jsGet t k := by
  by_cases h : a.1 = k
  · simp [jsGet, List.find?_cons_of_pos, h]
  · simp [jsGet, List.find?_cons_of_neg, h]

lemma jsGet_map_set {β : Type} (l : List (String × β)) (k k2 : String) (v : β) :
    jsGet (l.map (fun e => if e.1 = k then (k, v) else e)) k2 =
      if k2 = k then
        (if l.any (fun e => e.1 = k) then some v else none)
      else jsGet l k2 := by
  induction l with
  | nil => by_cases hk : k2 = k <;> simp [hk, jsGet]
  | cons a t ih =>
      simp only [List.map_cons]
      rw [jsGet_cons, jsGet_cons]
      by_cases ha : a.1 = k
      · by_cases hk : k2 = k
        · simp [ha, hk, List.any_cons]
        · have hk2 : ¬(k = k2) := fun h => hk h.symm
          simp [ha, hk, hk2, ih, List.any_cons]
      · by_cases hk : k2 = k
        · subst hk
          have hor : (decide (a.1 = k2) ||
              t.any (fun e => decide (e.1 = k2))) =
              t.any (fun e => decide (e.1 = k2)) := by
            rw [decide_eq_false ha]
            simp
          simp only [List.any_cons, hor]
          simp [ha, ih]
        · by_cases h2 : a.1 = k2
          · simp [ha, hk, h2]
          · simp [ha, hk, h2, ih]

lemma jsGet_append_single {β : Type} (l : List (String × β)) (k k2 : String)
    (v : β) (hany : l.any (fun e => e.1 = k) = false) :
    jsGet (l ++ [(k, v)]) k2 = if k2 = k then some v else jsGet l k2 := by
  induction l with
  | nil =>
      simp only [List.nil_append]
      rw [jsGet_cons]
      by_cases hk : k2 = k
      · simp [hk]
      · have hk2 : ¬(k = k2) := fun h => hk h.symm
        simp [hk, hk2, jsGet]
  | cons a t ih =>
      simp only [List.any_cons, Bool.or_eq_false_iff] at hany
      have ha : ¬(a.1 = k) := by
        intro h
        simpa [h] using hany.1
      simp only [List.cons_append]
      rw [jsGet_cons, jsGet_cons]
      by_cases h2 : a.1 = k2
      · have hk : ¬(k2 = k) := fun hkk => ha (hkk ▸ h2)
        simp [h2, hk]
      · simp [h2, ih hany.2]

lemma jsGet_jsSet {β : Type} (l : List (String × β)) (k k2 : String) (v : β) :
    jsGet (jsSet l k v) k2 = if k2 = k then some v else jsGet l k2 := by
  unfold jsSet
  by_cases hany : l.any (fun e => e.1 = k) = true
  · rw [if_pos hany, jsGet_map_set, hany]
    simp
  · have hf : l.any (fun e => e.1 = k) = false :=
      Bool.eq_false_iff.mpr hany
    rw [if_neg hany, jsGet_append_single l k k2 v hf]

lemma jsGet_jsSet_self {β : Type} (l : List (String × β)) (k : String)
    (v : β) : jsGet (jsSet l k v) k = some v := by
  rw [jsGet_jsSet, if_pos rfl]

/-! ## Claim C1 -/

/-- The dose stored by updateModel: the adaptive step applied to the passed
duration, with floor 45 and ceiling 180. -/
lemma updateModel_medDuration (data : AppData) (protocolId : String)
    (delta : ℤ) (currentDuration : ℚ) (hour : ℕ) (now : ℚ) :
    (jsGet (updateModel data protocolId delta currentDuration hour now).models
      protocolId).bind (fun m => m.medDuration) =
      some (if delta = 1 then
        max 45 (currentDuration - medStep data.history protocolId)
      else if delta = -1 then
        min 180 (currentDuration + medStep data.history protocolId)
      else currentDuration) := by
  simp only [updateModel]
  rw [jsGet_jsSet_self]
  simp only [Option.bind]
  split_ifs <;> rfl

lemma medStep_eq_ten (history : List SessionRecord) (pid : String)
    (hlen : 2 ≤ (jsSliceLast 3
      (history.filter (fun s => s.protocolId = pid))).length)
    (hworse : (jsSliceLast 3
      (history.filter (fun s => s.protocolId = pid))).any
        (fun s => s.delta = -1) = false)
    (hbetter : (jsSliceLast 2 (jsSliceLast 3
      (history.filter (fun s => s.protocolId = pid)))).all
        (fun s => s.delta = 1) = true) :
    medStep history pid = 10 := by
  unfold medStep
  rw [if_neg (by simp [hworse]), if_pos ⟨hlen, hbetter⟩]

/-- Claim C1, amended: the stored dose drops by exactly 10 seconds on a
feedback update exactly when, in the history including the current record,
the last two records of the item are both rated better and none of the last
three is rated worse; the result never goes below the 45 second floor. The
first better rating of a fresh item uses the default 15 second step. -/
theorem C1_amended (data : AppData) (goal : String) (p : Protocol)
    (duration : ℚ) (hour : ℕ) (now : ℚ)
    (hlen : 2 ≤ (jsSliceLast 3 ((data.history ++
      [recC1 goal p.id duration]).filter
        (fun s => s.protocolId = p.id))).length)
    (hworse : (jsSliceLast 3 ((data.history ++
      [recC1 goal p.id duration]).filter
        (fun s => s.protocolId = p.id))).any
        (fun s => s.delta = -1) = false)
    (hbetter : (jsSliceLast 2 (jsSliceLast 3 ((data.history ++
      [recC1 goal p.id duration]).filter
        (fun s => s.protocolId = p.id)))).all
        (fun s => s.delta = 1) = true) :
    (jsGet (saveRating data goal p 1 duration hour now).models p.id).bind
      (fun m => m.medDuration) = some (max 45 (duration - 10)) ∧
    (45 : ℚ) ≤ max 45 (duration - 10) := by
  constructor
  · have hrec : addSession data (recC1 goal p.id duration) =
        { data with history := data.history ++ [recC1 goal p.id duration] } :=
      rfl
    have hsave : saveRating data goal p 1 duration hour now =
        updateModel { data with
          history := data.history ++ [recC1 goal p.id duration] }
          p.id 1 duration hour now := rfl
    rw [hsave, updateModel_medDuration]
    have hstep : medStep (data.history ++ [recC1 goal p.id duration]) p.id =
        10 := medStep_eq_ten _ _ hlen hworse hbetter
    simp only [hstep]
    norm_num
  · exact le_max_left _ _

/-- Claim C1, counterexample: from a fresh history at dose 120, the first
better rating steps by 15, storing 105, not the claimed 110. -/
theorem C1_counterexample :
    (jsGet (saveRating dataC1 "focus" protocolC1 1 120 10 0).models
      "p").bind (fun m => m.medDuration) = some 105 ∧
    ((105 : ℚ) ≠ 110 ∧ 120 - 105 = (15 : ℚ)) := by
  constructor
  · norm_num [saveRating, addSession, updateModel, jsGet, jsGetN, jsSet,
      jsSetN, List.find?, dataC1, modelC1, protocolC1, jsOr, deltaToReward,
      updateBetaParams, updateHourlyModel, initializeHourlyModel,
      updateScoreWindow, calculateRecentVariance, shouldResetDueToDrift,
      softResetBetaParams, medStep, jsSliceLast, List.filter, List.any,
      List.all]
  · norm_num

/-- Claim C1, witness: when the record before the current one is already a
better rating, the update from 120 steps by exactly 10. -/
theorem C1_witness :
    (jsGet (saveRating dataC1w "focus" protocolC1 1 120 10 0).models
      "p").bind (fun m => m.medDuration) = some (max 45 (120 - 10)) :=
  (C1_amended dataC1w "focus" protocolC1 120 10 0
    (by norm_num [dataC1w, recC1, protocolC1, jsSliceLast, List.filter])
    (by norm_num [dataC1w, recC1, protocolC1, jsSliceLast, List.filter])
    (by norm_num [dataC1w, recC1, protocolC1, jsSliceLast, List.filter])).1

/-! ## Claim C4 -/

set_option maxHeartbeats 1000000 in
lemma updateModel_params (data : AppData) (pid : String) (delta : ℤ)
    (dur : ℚ) (hour : ℕ) (now : ℚ) :
    (jsGet (updateModel data pid delta dur hour now).models pid).bind
      (fun m => m.alphaParam) =
      some (updatedParams ((jsGet data.models pid).getD freshModel)
        delta now).1 ∧
    (jsGet (updateModel data pid delta dur hour now).models pid).bind
      (fun m => m.betaParam) =
      some (updatedParams ((jsGet data.models pid).getD freshModel)
        delta now).2 := by
  by_cases h0 : ((jsGet data.models pid).getD freshModel).trials = 0
  · constructor <;>
      · simp only [updateModel]
        rw [jsGet_jsSet_self]
        simp only [Option.bind, updateHourlyModel, updatedParams, if_pos h0]
        split_ifs <;> rfl
  · constructor <;>
      · simp only [updateModel]
        rw [jsGet_jsSet_self]
        simp only [Option.bind, updateHourlyModel, updatedParams, if_neg h0]
        split_ifs <;> rfl

lemma one_le_jsOr_one (x : Option ℚ) (hx : ∀ a, x = some a → 1 ≤ a) :
    1 ≤ jsOr x 1 := by
  unfold jsOr
  rcases x with _ | v
  · norm_num
  · by_cases hv : v = 0
    · simp [hv]
    · simpa [hv] using hx v rfl

lemma one_le_softReset (a b : ℚ) (ha : 1 ≤ a) (hb : 1 ≤ b) :
    1 ≤ (softResetBetaParams a b).1 ∧ 1 ≤ (softResetBetaParams a b).2 := by
  have hs : (0 : ℚ) < a + b := by linarith
  have h2 : (0 : ℚ) ≤ a + b - 2 := by linarith
  have hk0 : (0 : ℚ) ≤ ((⌊(a + b - 2) * (1/4)⌋ : ℤ) : ℚ) := by
    exact_mod_cast Int.floor_nonneg.mpr (mul_nonneg h2 (by norm_num))
  have hm0 : 0 ≤ a / (a + b) := div_nonneg (by linarith) (le_of_lt hs)
  have hm1 : a / (a + b) ≤ 1 := (div_le_one hs).mpr (by linarith)
  constructor
  · show (1 : ℚ) ≤ 1 + a / (a + b) * _
    nlinarith
  · show (1 : ℚ) ≤ 1 + (1 - a / (a + b)) * _
    nlinarith

lemma one_le_updatedParams (m0 : ProtocolModel) (delta : ℤ) (now : ℚ)
    (ha : ∀ a, m0.alphaParam = some a → 1 ≤ a)
    (hb : ∀ b, m0.betaParam = some b → 1 ≤ b) :
    1 ≤ (updatedParams m0 delta now).1 ∧
    1 ≤ (updatedParams m0 delta now).2 := by
  have h1 : 1 ≤ jsOr m0.alphaParam 1 := one_le_jsOr_one _ ha
  have h2 : 1 ≤ jsOr m0.betaParam 1 := one_le_jsOr_one _ hb
  have hr0 : 0 ≤ deltaToReward delta := deltaToReward_nonneg delta
  have hr1 : deltaToReward delta ≤ 1 := deltaToReward_le_one delta
  have hbu1 : 1 ≤ (updateBetaParams (jsOr m0.alphaParam 1)
      (jsOr m0.betaParam 1) (deltaToReward delta)).1 := by
    simp only [updateBetaParams]
    linarith
  have hbu2 : 1 ≤ (updateBetaParams (jsOr m0.alphaParam 1)
      (jsOr m0.betaParam 1) (deltaToReward delta)).2 := by
    simp only [updateBetaParams]
    linarith
  unfold updatedParams
  split_ifs
  · exact one_le_softReset _ _ hbu1 hbu2
  · exact ⟨hbu1, hbu2⟩

lemma updateModel_other (data : AppData) (pid : String) (delta : ℤ)
    (dur : ℚ) (hour : ℕ) (now : ℚ) (k : String) (hk : ¬(k = pid)) :
    jsGet (updateModel data pid delta dur hour now).models k =
      jsGet data.models k := by
  simp only [updateModel]
  rw [jsGet_jsSet, if_neg hk]

lemma updateModel_preserves (data : AppData) (pid : String) (delta : ℤ)
    (dur : ℚ) (hour : ℕ) (now : ℚ) (h : betaParamsGE1 data) :
    betaParamsGE1 (updateModel data pid delta dur hour now) := by
  intro k m hm
  by_cases hk : k = pid
  · subst hk
    have hp := updateModel_params data k delta dur hour now
    rw [hm] at hp
    simp only [Option.bind] at hp
    have hm0 : (∀ a, ((jsGet data.models k).getD freshModel).alphaParam =
        some a → 1 ≤ a) ∧
        (∀ b, ((jsGet data.models k).getD freshModel).betaParam =
        some b → 1 ≤ b) := by
      rcases hg : jsGet data.models k with _ | mm
      · constructor
        · intro a ha2
          simp only [Option.getD, freshModel] at ha2
          injection ha2 with ha3
          rw [← ha3]
        · intro b hb2
          simp only [Option.getD, freshModel] at hb2
          injection hb2 with hb3
          rw [← hb3]
      · simpa using h k mm hg
    have hle := one_le_updatedParams ((jsGet data.models k).getD freshModel)
      delta now hm0.1 hm0.2
    constructor
    · intro a ha2
      rw [hp.1] at ha2
      injection ha2 with ha3
      rw [← ha3]
      exact hle.1
    · intro b hb2
      rw [hp.2] at hb2
      injection hb2 with hb3
      rw [← hb3]
      exact hle.2
  · rw [updateModel_other data pid delta dur hour now k hk] at hm
    exact h k m hm

lemma driftSweep_preserves (now : ℚ) (candidates : List Protocol) :
    ∀ data : AppData, betaParamsGE1 data →
      betaParamsGE1 (driftSweep now candidates data) := by
  induction candidates with
  | nil =>
      intro data h
      simpa [driftSweep] using h
  | cons p ps ih =>
      intro data h
      have hstep : betaParamsGE1 (if driftTriggers now data p then
          { data with models := jsSet data.models p.id (resetModel now) }
          else data) := by
        split_ifs
        · intro k m hm
          simp only at hm
          rw [jsGet_jsSet] at hm
          by_cases hk : k = p.id
          · rw [if_pos hk] at hm
            injection hm with hm2
            constructor
            · intro a ha2
              rw [← hm2] at ha2
              simp only [resetModel] at ha2
              injection ha2 with ha3
              rw [← ha3]
              norm_num
            · intro b hb2
              rw [← hm2] at hb2
              simp only [resetModel] at hb2
              injection hb2 with hb3
              rw [← hb3]
          · rw [if_neg hk] at hm
            exact h k m hm
        · exact h
      have : driftSweep now (p :: ps) data =
          driftSweep now ps (if driftTriggers now data p then
            { data with models := jsSet data.models p.id (resetModel now) }
            else data) := rfl
      rw [this]
      exact ih _ hstep

lemma selectProtocol_preserves (env : SelectEnv) (candidates : List Protocol)
    (data : AppData) (h : betaParamsGE1 data) :
    betaParamsGE1 (selectProtocol env candidates data).newData := by
  simp only [selectProtocol]
  split_ifs <;>
    first
      | exact h
      | exact driftSweep_preserves env.now candidates data h

/-- Claim C4, counterexample: a posterior lazily created by the feedback
path is seeded Beta(1,1), not Beta(1.5,1.0): after one better rating of an
unknown item the stored alpha is 1 + 1 = 2, where a 1.5 seed would store
2.5. -/
theorem C4_counterexample :
    (jsGet (updateModel emptyData "p" 1 120 10 0).models "p").bind
      (fun m => m.alphaParam) = some 2 ∧
    (jsGet (updateModel emptyData "p" 1 120 10 0).models "p").bind
      (fun m => m.betaParam) = some 1 ∧
    (2 : ℚ) ≠ 3/2 + 1 := by
  refine ⟨?_, ?_, by norm_num⟩ <;>
    norm_num [updateModel, emptyData, jsGet, jsGetN, jsSet, jsSetN,
      List.find?, jsOr, freshModel, deltaToReward, updateBetaParams,
      updateHourlyModel, initializeHourlyModel, updateScoreWindow,
      calculateRecentVariance, shouldResetDueToDrift, softResetBetaParams,
      medStep, jsSliceLast, List.filter, List.any, List.all]

/-- Claim C4, amended: the feedback path seeds lazily created posteriors
with Beta(1,1) (the drift full reset seeds Beta(1.5,1.0)), and both the
feedback update and a selection call preserve the invariant that every
stored alpha and beta is at least 1. -/
theorem C4_amended :
    (freshModel.alphaParam = some 1 ∧ freshModel.betaParam = some 1) ∧
    (∀ now : ℚ, (resetModel now).alphaParam = some (3/2) ∧
      (resetModel now).betaParam = some 1) ∧
    (∀ (data : AppData) (pid : String) (delta : ℤ) (dur : ℚ)
        (hour : ℕ) (now : ℚ), betaParamsGE1 data →
      betaParamsGE1 (updateModel data pid delta dur hour now)) ∧
    (∀ (env : SelectEnv) (candidates : List Protocol) (data : AppData),
      betaParamsGE1 data →
      betaParamsGE1 (selectProtocol env candidates data).newData) := by
  refine ⟨⟨rfl, rfl⟩, fun now => ⟨rfl, rfl⟩, ?_, ?_⟩
  · intro data pid delta dur hour now h
    exact updateModel_preserves data pid delta dur hour now h
  · intro env candidates data h
    exact selectProtocol_preserves env candidates data h

/-- Claim C4, witness: the preservation conjunct applied to the empty
state. -/
theorem C4_witness :
    betaParamsGE1 (updateModel emptyData "p" 1 120 10 0) :=
  C4_amended.2.2.1 emptyData "p" 1 120 10 0
    (by
      intro pid m hm
      simp [jsGet, emptyData] at hm)

/-! ## Claims C2 and C3 -/

/-- The phase of a selection call as a nested conditional over the three
exploration filters, the drift sweep and the close-competition test. -/
lemma selectProtocol_phaseSpec (env : SelectEnv) (candidates : List Protocol)
    (data : AppData) :
    (selectProtocol env candidates data).phase =
      if 0 < (untriedCandidates data candidates).length then Phase.untried
      else if 0 < (undertriedCandidates data candidates).length then
        Phase.undertried
      else if 0 < (hourlyUndertriedCandidates env.hour data
        candidates).length then Phase.hourly
      else if isCloseCompetition (allProtocolStats
          (driftSweep env.now candidates data) candidates) = true then
        Phase.ensemble
      else Phase.standard := by
  simp only [selectProtocol]
  split_ifs <;> rfl

/-- Claim C2, amended: a selection call evaluates six phases in strict
order with the first match winning: untried, undertried, minimum-hourly
exploration (active, threshold 2 per hour), drift sweep, close-competition
ensemble, standard Thompson. The hourly phase is not disabled: it wins
exactly when the earlier filters are empty and some tried candidate lacks
2 trials in the current hour. -/
theorem C2_amended (env : SelectEnv) (candidates : List Protocol)
    (data : AppData) :
    ((selectProtocol env candidates data).phase = Phase.untried ↔
      untriedCandidates data candidates ≠ []) ∧
    ((selectProtocol env candidates data).phase = Phase.undertried ↔
      (untriedCandidates data candidates = [] ∧
       undertriedCandidates data candidates ≠ [])) ∧
    ((selectProtocol env candidates data).phase = Phase.hourly ↔
      (untriedCandidates data candidates = [] ∧
       undertriedCandidates data candidates = [] ∧
       hourlyUndertriedCandidates env.hour data candidates ≠ [])) ∧
    (((selectProtocol env candidates data).phase = Phase.ensemble ∨
      (selectProtocol env candidates data).phase = Phase.standard) ↔
      (untriedCandidates data candidates = [] ∧
       undertriedCandidates data candidates = [] ∧
       hourlyUndertriedCandidates env.hour data candidates = [])) ∧
    ((selectProtocol env candidates data).phase = Phase.ensemble ↔
      (untriedCandidates data candidates = [] ∧
       undertriedCandidates data candidates = [] ∧
       hourlyUndertriedCandidates env.hour data candidates = [] ∧
       isCloseCompetition (allProtocolStats
         (driftSweep env.now candidates data) candidates) = true)) := by
  have hp := selectProtocol_phaseSpec env candidates data
  by_cases h1 : untriedCandidates data candidates = [] <;>
  by_cases h2 : undertriedCandidates data candidates = [] <;>
  by_cases h3 : hourlyUndertriedCandidates env.hour data candidates = [] <;>
  by_cases h4 : isCloseCompetition (allProtocolStats
    (driftSweep env.now candidates data) candidates) = true <;>
  · simp [hp, h1, h2, h3, h4, List.length_pos]

/-- Claim C2, counterexample: a state in which every phase filter before
the hourly one is empty and the only candidate lacks hourly data: the
hourly-exploration phase determines the selection and returns the base
duration 120 although the stored learned dose is 90, so the phase is
neither disabled nor unable to determine the decision. -/
theorem C2_counterexample :
    (selectProtocol envStd [protocolP] dataC2).phase = Phase.hourly ∧
    (selectProtocol envStd [protocolP] dataC2).duration = 120 ∧
    (jsGet dataC2.models "p").bind (fun m => m.medDuration) = some 90 := by
  refine ⟨?_, ?_, ?_⟩ <;>
    norm_num [selectProtocol, untriedCandidates, undertriedCandidates,
      hourlyUndertriedCandidates, jsGet, jsGetN, List.find?, dataC2, modelC2,
      protocolP, List.filter, envStd, jsPick]

lemma driftSweep_id (now : ℚ) (candidates : List Protocol) :
    ∀ data : AppData,
      (∀ p ∈ candidates, driftTriggers now data p = false) →
      driftSweep now candidates data = data := by
  induction candidates with
  | nil =>
      intro data _
      rfl
  | cons p ps ih =>
      intro data h
      have hstep : driftSweep now (p :: ps) data =
          driftSweep now ps (if driftTriggers now data p then
            { data with models := jsSet data.models p.id (resetModel now) }
            else data) := rfl
      rw [hstep, if_neg (by simp [h p (List.mem_cons_self p ps)])]
      exact ih data (fun q hq => h q (List.mem_cons_of_mem p hq))

/-- Claim C3, amended: a selection call leaves the persisted state unchanged
unless the drift sweep fires for some candidate; when no candidate triggers
the drift gate, the state written back equals the state loaded. -/
theorem C3_amended (env : SelectEnv) (candidates : List Protocol)
    (data : AppData)
    (h : ∀ p ∈ candidates, driftTriggers env.now data p = false) :
    (selectProtocol env candidates data).newData = data := by
  have hs : driftSweep env.now candidates data = data :=
    driftSweep_id env.now candidates data h
  simp only [selectProtocol]
  split_ifs <;> first | rfl | exact hs

/-- Claim C3, counterexample: on a drifting model the selection call writes
a fully reset model back to storage, so the persisted state changes. -/
theorem C3_counterexample :
    (jsGet (selectProtocol envC3 [protocolP] dataC3).newData.models "p").map
      (fun m => m.trials) = some 0 ∧
    (jsGet dataC3.models "p").map (fun m => m.trials) = some 25 ∧
    (selectProtocol envC3 [protocolP] dataC3).newData ≠ dataC3 := by
  have h1 : (jsGet (selectProtocol envC3 [protocolP] dataC3).newData.models
      "p").map (fun m => m.trials) = some 0 := by
    norm_num [selectProtocol, untriedCandidates, undertriedCandidates,
      hourlyUndertriedCandidates, jsGet, jsGetN, List.find?, dataC3, modelC3,
      protocolP, List.filter, envC3, envStd, jsPick, driftSweep,
      driftTriggers, shouldResetDueToDrift, resetModel, jsSet, List.any]
  have h2 : (jsGet dataC3.models "p").map (fun m => m.trials) = some 25 := by
    norm_num [jsGet, List.find?, dataC3, modelC3]
  refine ⟨h1, h2, ?_⟩
  intro he
  rw [he, h2] at h1
  exact absurd (Option.some_inj.mp h1) (by norm_num)

/-- Claim C3, witness for the amended theorem: a state with no drifting
candidate is returned unchanged. -/
theorem C3_witness :
    (selectProtocol envStd [protocolP] dataC2).newData = dataC2 :=
  C3_amended envStd [protocolP] dataC2
    (by
      intro p hp
      rcases List.mem_singleton.mp hp with rfl
      norm_num [driftTriggers, jsGet, List.find?, dataC2, modelC2, protocolP,
        shouldResetDueToDrift, envStd])

/-! ## Claim C8 -/

lemma isCloseCompetition_iff_spec (data : AppData)
    (candidates : List Protocol) :
    isCloseCompetition (allProtocolStats data candidates) = true ↔
      specCloseCompetition data candidates := by
  unfold isCloseCompetition specCloseCompetition
  simp [Bool.and_eq_true, decide_eq_true_iff, and_assoc]

/-- Claim C8: once the untried, undertried and hourly filters are all empty
(the call reaches the drift sweep and the competition check), the ensemble
arbitrator path is taken iff the spec condition holds on the post-sweep
state: at least two ranked candidates with one trial or more, top two both
with at least 20 trials, and means within 0.05; in every other case
selection falls through to the standard Thompson branch. -/
theorem C8_closeCompetitionGate (env : SelectEnv)
    (candidates : List Protocol) (data : AppData)
    (h1 : untriedCandidates data candidates = [])
    (h2 : undertriedCandidates data candidates = [])
    (h3 : hourlyUndertriedCandidates env.hour data candidates = []) :
    ((selectProtocol env candidates data).phase = Phase.ensemble ↔
      specCloseCompetition (driftSweep env.now candidates data) candidates) ∧
    (¬specCloseCompetition (driftSweep env.now candidates data) candidates →
      (selectProtocol env candidates data).phase = Phase.standard) := by
  have hp := selectProtocol_phaseSpec env candidates data
  rw [h1, h2, h3] at hp
  simp only [List.length_nil, lt_irrefl, if_false] at hp
  constructor
  · rw [hp]
    by_cases hc : isCloseCompetition (allProtocolStats
        (driftSweep env.now candidates data) candidates) = true
    · simp [hc, (isCloseCompetition_iff_spec _ _).mp hc]
    · simp [hc]
      intro hs
      exact hc ((isCloseCompetition_iff_spec _ _).mpr hs)
  · intro hs
    rw [hp, if_neg]
    intro hc
    exact hs ((isCloseCompetition_iff_spec _ _).mp hc)

/-- Claim C8, witness: two candidates with 25 trials each and posterior
means 0.7 and 0.7333 trigger the ensemble path. -/
lemma stringAB : (decide (("a" : String) = "b")) = false := by decide

lemma stringBA : (decide (("b" : String) = "a")) = false := by decide

theorem C8_witness :
    (selectProtocol envStd candsC8 dataC8).phase = Phase.ensemble :=
  (C8_closeCompetitionGate envStd candsC8 dataC8
    (by norm_num [untriedCandidates, jsGet, List.find?, dataC8, modelC8a,
      modelC8b, candsC8, List.filter, stringAB, stringBA])
    (by norm_num [undertriedCandidates, jsGet, List.find?, dataC8, modelC8a,
      modelC8b, candsC8, List.filter, stringAB, stringBA])
    (by norm_num [hourlyUndertriedCandidates, jsGet, jsGetN, List.find?,
      dataC8, modelC8a, modelC8b, candsC8, List.filter, envStd, stringAB,
      stringBA])).1.mpr
    (by norm_num [specCloseCompetition, allProtocolStats, sortDescBy,
      insertDescBy, jsGet, List.find?, jsOr, betaMean, List.filterMap,
      dataC8, modelC8a, modelC8b, candsC8, defaultProtocolStat, driftSweep,
      driftTriggers, envStd, stringAB, stringBA])

/-! ## Claim C9 -/

lemma mem_voteKeys_aux (vs : List AlgorithmVote) :
    ∀ (acc : List String) (x : String),
      (x ∈ acc ∨ ∃ v ∈ vs, v.protocolId = x) →
      x ∈ vs.foldl (fun acc v =>
        if acc.contains v.protocolId then acc else acc ++ [v.protocolId])
        acc := by
  induction vs with
  | nil =>
      intro acc x h
      rcases h with h | ⟨v, hv, _⟩
      · exact h
      · exact absurd hv (List.not_mem_nil v)
  | cons v vs ih =>
      intro acc x h
      show x ∈ vs.foldl _
        (if acc.contains v.protocolId then acc else acc ++ [v.protocolId])
      apply ih
      rcases h with h | ⟨w, hw, hwx⟩
      · left
        by_cases hc : acc.contains v.protocolId
        · rw [if_pos hc]
          exact h
        · rw [if_neg hc]
          exact List.mem_append_left _ h
      · rcases List.mem_cons.mp hw with rfl | hw2
        · left
          by_cases hc : acc.contains w.protocolId
          · rw [if_pos hc, ← hwx]
            exact List.mem_of_elem_eq_true hc
          · rw [if_neg hc, ← hwx]
            exact List.mem_append_right _ (List.mem_singleton.mpr rfl)
        · exact Or.inr ⟨w, hw2, hwx⟩

lemma mem_voteKeys (vs : List AlgorithmVote) (v : AlgorithmVote)
    (hv : v ∈ vs) : v.protocolId ∈ voteKeys vs :=
  mem_voteKeys_aux vs [] v.protocolId (Or.inr ⟨v, hv, rfl⟩)

lemma argmaxKey_cons_ne_none (f : String → ℚ) (a : String) (t : List String) :
    argmaxKey f (a :: t) ≠ none := by
  rw [argmaxKey]
  cases argmaxKey f t with
  | none => simp
  | some k2 =>
      dsimp only
      split_ifs <;> simp

lemma argmaxKey_ge (f : String → ℚ) :
    ∀ (l : List String) (w : String), argmaxKey f l = some w →
      ∀ k ∈ l, f k ≤ f w := by
  intro l
  induction l with
  | nil =>
      intro w hw
      simp [argmaxKey] at hw
  | cons a t ih =>
      intro w hw k hk
      rcases List.mem_cons.mp hk with rfl | hkt
      · cases h2 : argmaxKey f t with
        | none =>
            rw [argmaxKey, h2] at hw
            injection hw with hw2
            rw [← hw2]
        | some k2 =>
            rw [argmaxKey, h2] at hw
            dsimp only at hw
            split_ifs at hw with hgt
            · injection hw with hw2
              rw [← hw2]
              exact le_of_lt hgt
            · injection hw with hw2
              rw [← hw2]
      · cases h2 : argmaxKey f t with
        | none =>
            cases t with
            | nil => exact absurd hkt (List.not_mem_nil k)
            | cons b s => exact absurd h2 (argmaxKey_cons_ne_none f b s)
        | some k2 =>
            have hle := ih k2 h2 k hkt
            rw [argmaxKey, h2] at hw
            dsimp only at hw
            split_ifs at hw with hgt
            · injection hw with hw2
              rw [← hw2]
              exact hle
            · injection hw with hw2
              rw [← hw2]
              exact le_trans hle (not_lt.mp hgt)

/-- Claim C9: ensembleVoting runs the four strategies, weights each vote
confidence by the orchestrator weights (thompson 0.35, ucb 0.25,
epsilonGreedy 0.25, softmax 0.15), selects the item with the highest summed
weighted confidence, and reports as consensus score the fraction of the
four strategies that picked the winner, always a multiple of one quarter in
[0, 1]. -/
theorem C9_ensembleVoting (env : EnsembleEnv)
    (protocols : List EnsembleProtocol) (totalTrials : ℕ) :
    (ensembleVoting env protocols totalTrials orchestratorWeights).votes =
      [thompsonVote env protocols, ucbVote env protocols totalTrials,
       epsilonGreedyVote env protocols totalTrials,
       softmaxVote env protocols totalTrials] ∧
    (orchestratorWeights.thompson = 35/100 ∧
     orchestratorWeights.ucb = 25/100 ∧
     orchestratorWeights.epsilonGreedy = 25/100 ∧
     orchestratorWeights.softmax = 15/100) ∧
    (∀ v ∈ (ensembleVoting env protocols totalTrials
        orchestratorWeights).votes,
      weightedCount orchestratorWeights
        (ensembleVoting env protocols totalTrials orchestratorWeights).votes
        v.protocolId ≤
      weightedCount orchestratorWeights
        (ensembleVoting env protocols totalTrials orchestratorWeights).votes
        (ensembleVoting env protocols totalTrials
          orchestratorWeights).selectedProtocolId) ∧
    (ensembleVoting env protocols totalTrials
        orchestratorWeights).consensusScore =
      (((ensembleVoting env protocols totalTrials
        orchestratorWeights).votes.filter (fun v => v.protocolId =
          (ensembleVoting env protocols totalTrials
            orchestratorWeights).selectedProtocolId)).length : ℚ) / 4 ∧
    (ensembleVoting env protocols totalTrials
      orchestratorWeights).consensusScore ∈
      ({0, 1/4, 1/2, 3/4, 1} : Set ℚ) := by
  refine ⟨rfl, ⟨rfl, rfl, rfl, rfl⟩, ?_, rfl, ?_⟩
  · intro v hv
    have hvotes : (ensembleVoting env protocols totalTrials
        orchestratorWeights).votes =
        [thompsonVote env protocols, ucbVote env protocols totalTrials,
         epsilonGreedyVote env protocols totalTrials,
         softmaxVote env protocols totalTrials] := rfl
    rw [hvotes] at hv ⊢
    have hmem : v.protocolId ∈ voteKeys
        [thompsonVote env protocols, ucbVote env protocols totalTrials,
         epsilonGreedyVote env protocols totalTrials,
         softmaxVote env protocols totalTrials] :=
      mem_voteKeys _ v hv
    rcases hkeys : voteKeys
        [thompsonVote env protocols, ucbVote env protocols totalTrials,
         epsilonGreedyVote env protocols totalTrials,
         softmaxVote env protocols totalTrials] with _ | ⟨k, ks⟩
    · rw [hkeys] at hmem
      exact absurd hmem (List.not_mem_nil _)
    · have hne := argmaxKey_cons_ne_none (weightedCount orchestratorWeights
        [thompsonVote env protocols, ucbVote env protocols totalTrials,
         epsilonGreedyVote env protocols totalTrials,
         softmaxVote env protocols totalTrials]) k ks
      rcases hsome : argmaxKey (weightedCount orchestratorWeights
          [thompsonVote env protocols, ucbVote env protocols totalTrials,
           epsilonGreedyVote env protocols totalTrials,
           softmaxVote env protocols totalTrials]) (k :: ks) with _ | w
      · exact absurd hsome hne
      · have hsel : (ensembleVoting env protocols totalTrials
            orchestratorWeights).selectedProtocolId = w := by
          show (argmaxKey (weightedCount orchestratorWeights _)
            (voteKeys _)).getD "" = w
          rw [hkeys, hsome]
          rfl
        rw [hsel]
        rw [hkeys] at hmem
        exact argmaxKey_ge _ (k :: ks) w hsome v.protocolId hmem
  · have hform : (ensembleVoting env protocols totalTrials
        orchestratorWeights).consensusScore =
        (((ensembleVoting env protocols totalTrials
          orchestratorWeights).votes.filter (fun v => v.protocolId =
            (ensembleVoting env protocols totalTrials
              orchestratorWeights).selectedProtocolId)).length : ℚ) / 4 := rfl
    have hlen : ((ensembleVoting env protocols totalTrials
        orchestratorWeights).votes.filter (fun v => v.protocolId =
          (ensembleVoting env protocols totalTrials
            orchestratorWeights).selectedProtocolId)).length ≤ 4 := by
      have h4 : (ensembleVoting env protocols totalTrials
          orchestratorWeights).votes.length = 4 := rfl
      calc ((ensembleVoting env protocols totalTrials
          orchestratorWeights).votes.filter _).length ≤
          (ensembleVoting env protocols totalTrials
            orchestratorWeights).votes.length := List.length_filter_le _ _
        _ = 4 := h4
    rw [hform]
    set n := ((ensembleVoting env protocols totalTrials
      orchestratorWeights).votes.filter (fun v => v.protocolId =
        (ensembleVoting env protocols totalTrials
          orchestratorWeights).selectedProtocolId)).length with hn
    interval_cases n <;>
      simp [Set.mem_insert_iff, Set.mem_singleton_iff] <;> norm_num
